import Mathlib

/-!
# Heritage — formal model of the vault contract and the crypto engine

Shallow embedding of the repository:

* `apps/contract/sources/vault.move` (module `heritage::vault`): the dead
  man's switch vault.  Sui Move semantics: every `assert!` aborts the whole
  transaction with an error code and rolls back all effects, so each entry
  function is modelled as a pure function returning `Except Nat result`;
  an `Except.error code` result is a transaction abort with that code and
  no state change.  Move `u64` arithmetic aborts on overflow (it never
  wraps), so on every non-aborting execution it agrees with `Nat`
  arithmetic; `u64` values are therefore modelled as `Nat`.  Addresses and
  object ids are modelled as `Nat`.  Coin / balance movement is modelled by
  returning the list of transfers `(recipient, amount)` an execution
  performs, and `event::emit` by returning the emitted event.

* the crypto engine (`crypto-engine.ts`): `encryptPayload` / `decryptPayload`
  and `splitKey` / `recoverKey`.  These delegate to external libraries
  (tweetnacl and secrets.js-grempe) that are not part of this repository;
  the primitives are modelled from the spec, see the doc comments below.
-/

namespace Heritage

/-! ## Error codes (vault.move lines 17-21) -/

def ENotOwner : Nat := 0
def ENotBeneficiary : Nat := 1
def EUnlockTimeNotReached : Nat := 2
def EAlreadyClaimed : Nat := 3
def EInvalidShares : Nat := 4

/-! ## Events (vault.move lines 27-53) -/

/-- The events emitted by `heritage::vault`, one constructor per Move event
struct. -/
inductive VaultEvent where
  | LegacyClaimed (beneficiary : Nat) (blob_id : String)
      (shares : List String) (amount : Nat)
  | VaultCreated (vault_id : Nat) (owner : Nat) (beneficiary : Nat)
      (unlock_time_ms : Nat)
  | VaultCancelled (vault_id : Nat) (owner : Nat) (amount : Nat)
  | HeartbeatUpdated (vault_id : Nat) (timestamp : Nat)
deriving Repr, DecidableEq

/-! ## The vault object (vault.move lines 59-75) -/

/-- The shared vault object `LegacyBox`.  `id` models the Sui `UID`,
`balance` the `Balance<SUI>` value in MIST. -/
structure LegacyBox where
  id : Nat
  owner : Nat
  beneficiary : Nat
  unlock_time_ms : Nat
  last_heartbeat : Nat
  encrypted_blob_id : String
  locked_shares : List String
  balance : Nat
deriving Repr, DecidableEq

/-- A coin transfer performed by an execution: `(recipient, amount)`. -/
abbrev Transfer := Nat × Nat

/-! ## Entry functions -/

/-- Move entry `create_vault` (vault.move lines 90-134).  The source performs no
validation whatsoever: it builds the share vector `[share_3, share_4,
share_5]`, sets `last_heartbeat` to the current clock time, moves the coin
into the balance, emits `VaultCreated` and shares the object.  `sender` is
`ctx.sender()`, `now` is `clock.timestamp_ms()`, `fresh_id` models the id
handed out by `object::new`. -/
def create_vault (sender beneficiary unlock_time_ms : Nat)
    (blob_id share_3 share_4 share_5 : String)
    (coin : Nat) (now : Nat) (fresh_id : Nat) : LegacyBox × VaultEvent :=
  let vault : LegacyBox :=
    { id := fresh_id
      owner := sender
      beneficiary := beneficiary
      unlock_time_ms := unlock_time_ms
      last_heartbeat := now
      encrypted_blob_id := blob_id
      locked_shares := [share_3, share_4, share_5]
      balance := coin }
  (vault, VaultEvent.VaultCreated fresh_id sender beneficiary unlock_time_ms)

/-- Move entry `im_alive` (vault.move lines 142-159): only the owner may heartbeat;
on success `last_heartbeat` is set to the clock time and a
`HeartbeatUpdated` event is emitted. -/
def im_alive (vault : LegacyBox) (sender now : Nat) :
    Except Nat (LegacyBox × VaultEvent) :=
  if sender = vault.owner then
    Except.ok ({ vault with last_heartbeat := now },
      VaultEvent.HeartbeatUpdated vault.id now)
  else
    Except.error ENotOwner

/-- Move entry `claim_legacy` (vault.move lines 167-204): asserts the sender is the
beneficiary, then asserts `current_time > last_heartbeat + unlock_time_ms`;
on success it splits the whole balance out (transferring it when positive)
and emits `LegacyClaimed` with the blob id, the locked shares and the
amount.  The vault is NOT destructured and no claimed flag exists: the
resulting vault only has its balance zeroed. -/
def claim_legacy (vault : LegacyBox) (sender now : Nat) :
    Except Nat (LegacyBox × List Transfer × VaultEvent) :=
  if sender = vault.beneficiary then
    if vault.last_heartbeat + vault.unlock_time_ms < now then
      let amount := vault.balance
      Except.ok ({ vault with balance := 0 },
        (if 0 < amount then [(sender, amount)] else []),
        VaultEvent.LegacyClaimed sender vault.encrypted_blob_id
          vault.locked_shares amount)
    else
      Except.error EUnlockTimeNotReached
  else
    Except.error ENotBeneficiary

/-- Move entry `cancel_legacy` (vault.move lines 207-247): the owner consumes the
vault, takes the whole balance back and the object is deleted.  The Move
code destructures before the owner assert, but an abort rolls everything
back, so the observable behaviour is the guarded one modelled here. -/
def cancel_legacy (vault : LegacyBox) (sender : Nat) :
    Except Nat (List Transfer × VaultEvent) :=
  if sender = vault.owner then
    Except.ok ((if 0 < vault.balance then [(sender, vault.balance)] else []),
      VaultEvent.VaultCancelled vault.id vault.owner vault.balance)
  else
    Except.error ENotOwner

/-- Move entry `add_funds` (vault.move lines 250-257). -/
def add_funds (vault : LegacyBox) (sender coin : Nat) :
    Except Nat LegacyBox :=
  if sender = vault.owner then
    Except.ok { vault with balance := vault.balance + coin }
  else
    Except.error ENotOwner

/-! ## View functions -/

/-- View function `can_claim` (vault.move lines 307-310):
`current_time > last_heartbeat + unlock_time_ms`. -/
def can_claim (vault : LegacyBox) (now : Nat) : Bool :=
  vault.last_heartbeat + vault.unlock_time_ms < now

/-- View function `time_until_claim` (vault.move lines 314-323): `0` once
`current_time >= last_heartbeat + unlock_time_ms`, otherwise the
difference. -/
def time_until_claim (vault : LegacyBox) (now : Nat) : Nat :=
  let unlock_at := vault.last_heartbeat + vault.unlock_time_ms
  if unlock_at ≤ now then 0 else unlock_at - now

/-! ## Crypto engine: symmetric encryption (crypto-engine.ts, module 1)

Byte strings are modelled as `List Nat`; the Base64 and UTF-8 codecs of
`tweetnacl-util` are bijections between the transported strings and their
byte contents, so both sides of each codec are identified with the byte
list itself. -/

/-- Constant `nacl.secretbox.nonceLength` (24 bytes). -/
def nonceLength : Nat := 24

/-- Constant `nacl.secretbox.keyLength` (32 bytes). -/
def keyLength : Nat := 32

/-- Modelled from the spec: `nacl.secretbox` (XSalsa20-Poly1305, from the
external tweetnacl library, not part of this repository).  The spec requires
authenticated symmetric encryption whose decryption fails closed on a wrong
key or altered blob; the ideal model makes the ciphertext bind the key and
the nonce, so that opening succeeds exactly when both match. -/
def secretbox (message nonce key : List Nat) : List Nat :=
  key ++ nonce ++ message

/-- Modelled from the spec: `nacl.secretbox.open` — the inverse of
`secretbox`; returns `none` (decryption failure) unless the ciphertext was
produced under the same key and nonce. -/
def secretbox_open (ciphertext nonce key : List Nat) : Option (List Nat) :=
  if ciphertext.take keyLength = key
      ∧ (ciphertext.drop keyLength).take nonceLength = nonce then
    some ((ciphertext.drop keyLength).drop nonceLength)
  else
    none

/-- Function `encryptPayload` (crypto-engine.ts lines 34-51): encrypts with
`secretbox` under a fresh random nonce (made explicit here as a parameter)
and prepends the nonce to the ciphertext. -/
def encryptPayload (text aesKey nonce : List Nat) : List Nat :=
  nonce ++ secretbox text nonce aesKey

/-- Function `decryptPayload` (crypto-engine.ts lines 59-74): splits off the
first `nonceLength` bytes as the nonce, opens the rest with `secretbox_open`,
and throws `Decryption failed - invalid key or corrupted data` when opening
fails. -/
def decryptPayload (encryptedString aesKey : List Nat) :
    Except String (List Nat) :=
  let nonce := encryptedString.take nonceLength
  let ciphertext := encryptedString.drop nonceLength
  match secretbox_open ciphertext nonce aesKey with
  | some decrypted => Except.ok decrypted
  | none => Except.error "Decryption failed - invalid key or corrupted data"

/-! ## Crypto engine: threshold secret sharing (crypto-engine.ts, module 2)

`splitKey` and `recoverKey` delegate to the external secrets.js-grempe
library (not part of this repository).  Modelled from the spec: a
polynomial/Lagrange-interpolation (t, n) = (3, 5) threshold scheme over a
finite field; the model uses the prime field `ZMod 7` (the library works
over GF(2^8); the Lagrange algebra is field-generic), the random degree-2
sharing polynomial `q(x) = key + a*x + b*x^2` being made explicit through
its two random coefficients `a` and `b`.  Field inversion is implemented as
`x ^ 5 = x ^ (7 - 2)` (Fermat), which is total and executable. -/

/-- Multiplicative inverse in `ZMod 7`, computed as `x ^ (7 - 2)`. -/
def finv (x : ZMod 7) : ZMod 7 := x ^ 5

/-- Modelled from the spec: share number `i` (0-based) is the sharing
polynomial evaluated at the nonzero index `i + 1`, tagged with that index. -/
def share (key a b : ZMod 7) (i : Nat) : ZMod 7 × ZMod 7 :=
  (((i + 1 : Nat) : ZMod 7),
    key + a * ((i + 1 : Nat) : ZMod 7) + b * ((i + 1 : Nat) : ZMod 7) ^ 2)

/-- Modelled from the spec: `splitKey` (crypto-engine.ts lines 87-99) splits
the key into 5 index-tagged shares with threshold 3. -/
def splitKey (key a b : ZMod 7) : List (ZMod 7 × ZMod 7) :=
  (List.range 5).map (share key a b)

/-- The Lagrange basis factor at evaluation point 0 for the node `xi` of the
point list `pts`: the product over the other nodes `xj` of `xj / (xj - xi)`. -/
def lagrangeBasis0 (pts : List (ZMod 7 × ZMod 7)) (xi : ZMod 7) : ZMod 7 :=
  ((pts.filter (fun q => decide (q.1 ≠ xi))).map
    (fun q => q.1 * finv (q.1 - xi))).prod

/-- Lagrange interpolation of the point list `pts` evaluated at 0: the
reconstructed secret. -/
def lagrange0 (pts : List (ZMod 7 × ZMod 7)) : ZMod 7 :=
  (pts.map (fun p => p.2 * lagrangeBasis0 pts p.1)).sum

/-- Modelled from the spec: `recoverKey` (crypto-engine.ts lines 108-120)
first checks the threshold — fewer than 3 shares throw
`Minimum 3 shares required to recover key` before any reconstruction is
attempted — and then reconstructs by Lagrange interpolation at 0. -/
def recoverKey (shares : List (ZMod 7 × ZMod 7)) : Except String (ZMod 7) :=
  if shares.length < 3 then
    Except.error "Minimum 3 shares required to recover key"
  else
    Except.ok (lagrange0 shares)

end Heritage

deriving instance DecidableEq for Except

namespace Heritage

/-! ## Theorems about the vault state machine -/

/-- C1: after a successful `claim_legacy` the vault is NOT terminal and not
inert.  Concretely, claiming the vault `{owner 10, beneficiary 20, unlock
100 ms, last_heartbeat 0, balance 50}` at time 101 succeeds and leaves the
vault object in place with balance 0 — and on that claimed vault a second
`claim_legacy` succeeds again, `im_alive` by the owner succeeds (it is not
rejected), and `cancel_legacy` by the owner succeeds.  The code keeps no
claimed flag (`EAlreadyClaimed` is declared but never used) even though the
function is documented as destructuring the vault. -/
theorem claimed_vault_not_inert :
    claim_legacy ⟨1, 10, 20, 100, 0, "b", ["s3", "s4", "s5"], 50⟩ 20 101
      = Except.ok (⟨1, 10, 20, 100, 0, "b", ["s3", "s4", "s5"], 0⟩, [(20, 50)],
          VaultEvent.LegacyClaimed 20 "b" ["s3", "s4", "s5"] 50)
    ∧ (claim_legacy ⟨1, 10, 20, 100, 0, "b", ["s3", "s4", "s5"], 0⟩ 20 102).isOk = true
    ∧ (im_alive ⟨1, 10, 20, 100, 0, "b", ["s3", "s4", "s5"], 0⟩ 10 200).isOk = true
    ∧ (cancel_legacy ⟨1, 10, 20, 100, 0, "b", ["s3", "s4", "s5"], 0⟩ 10).isOk = true :=
  ⟨rfl, rfl, rfl, rfl⟩

/-- C2 (counterexample): calling `create_vault` with `unlock_time_ms = 0`
does not fail — it succeeds and produces an Active vault with unlock
duration 0 (the source validates nothing; `EInvalidShares` is declared but
never used). -/
theorem create_vault_zero_unlock_succeeds :
    create_vault 10 20 0 "b" "s3" "s4" "s5" 5 1000 1
      = (⟨1, 10, 20, 0, 1000, "b", ["s3", "s4", "s5"], 5⟩,
         VaultEvent.VaultCreated 1 10 20 0) :=
  rfl

/-- C2 (amended): `create_vault` performs no validation at all — every call
succeeds, the created vault always carries exactly 3 locked shares (the
signature takes exactly three share strings), `last_heartbeat` is the
creation time, the unlock duration (including 0) and the deposited coin are
stored unchanged, and a `VaultCreated` event is emitted. -/
theorem create_vault_unvalidated (sender ben u coin t vid : Nat)
    (blob s3 s4 s5 : String) :
    (create_vault sender ben u blob s3 s4 s5 coin t vid).1.locked_shares.length = 3
    ∧ (create_vault sender ben u blob s3 s4 s5 coin t vid).1.unlock_time_ms = u
    ∧ (create_vault sender ben u blob s3 s4 s5 coin t vid).1.last_heartbeat = t
    ∧ (create_vault sender ben u blob s3 s4 s5 coin t vid).1.balance = coin
    ∧ (create_vault sender ben u blob s3 s4 s5 coin t vid).2
        = VaultEvent.VaultCreated vid sender ben u :=
  ⟨rfl, rfl, rfl, rfl, rfl⟩

/-- C3: a vault freshly created at time `t` has `last_heartbeat = t`;
`can_claim` is false for every `now ≤ t + u` (the boundary instant
included), true at `t + u + 1`, and in general `can_claim` holds exactly
when `now > t + u`. -/
theorem can_claim_fresh_vault (owner ben u coin t vid now : Nat)
    (blob s3 s4 s5 : String) :
    ((create_vault owner ben u blob s3 s4 s5 coin t vid).1.last_heartbeat = t)
    ∧ (now ≤ t + u →
        can_claim (create_vault owner ben u blob s3 s4 s5 coin t vid).1 now = false)
    ∧ can_claim (create_vault owner ben u blob s3 s4 s5 coin t vid).1 (t + u + 1) = true
    ∧ (can_claim (create_vault owner ben u blob s3 s4 s5 coin t vid).1 now = true
        ↔ t + u < now) := by
  refine ⟨rfl, ?_, ?_, ?_⟩
  · intro h
    simp only [create_vault, can_claim, decide_eq_false_iff_not]
    omega
  · simp [create_vault, can_claim]
  · simp [create_vault, can_claim]

/-- Witness for `can_claim_fresh_vault` at `t = 1000`, `u = 100`,
`now = 1100` (the boundary instant). -/
theorem can_claim_fresh_vault_witness :
    ((create_vault 10 20 100 "b" "s3" "s4" "s5" 5 1000 1).1.last_heartbeat = 1000)
    ∧ can_claim (create_vault 10 20 100 "b" "s3" "s4" "s5" 5 1000 1).1 1100 = false
    ∧ can_claim (create_vault 10 20 100 "b" "s3" "s4" "s5" 5 1000 1).1 1101 = true :=
  ⟨(can_claim_fresh_vault 10 20 100 5 1000 1 1100 "b" "s3" "s4" "s5").1,
   (can_claim_fresh_vault 10 20 100 5 1000 1 1100 "b" "s3" "s4" "s5").2.1 (by decide),
   (can_claim_fresh_vault 10 20 100 5 1000 1 1100 "b" "s3" "s4" "s5").2.2.1⟩

/-- C4: `claim_legacy` fails without any effect whenever the sender is not
the beneficiary (error `ENotBeneficiary`, regardless of time) or the sender
is the beneficiary but `now ≤ last_heartbeat + unlock_time_ms` (error
`EUnlockTimeNotReached`).  An `Except.error` result is a Move abort: the
transaction rolls back, so the balance and every other vault field are
untouched. -/
theorem claim_legacy_failure (v : LegacyBox) (sender now : Nat)
    (h : sender ≠ v.beneficiary ∨ now ≤ v.last_heartbeat + v.unlock_time_ms) :
    claim_legacy v sender now
      = Except.error
          (if sender = v.beneficiary then EUnlockTimeNotReached
           else ENotBeneficiary) := by
  rcases h with h | h
  · simp [claim_legacy, h]
  · by_cases hs : sender = v.beneficiary
    · simp [claim_legacy, hs, Nat.not_lt.mpr h]
    · simp [claim_legacy, hs]

/-- Witness for `claim_legacy_failure`: a stranger (address 99) claiming at
a very late time still gets `ENotBeneficiary`, and the beneficiary claiming
at the boundary instant gets `EUnlockTimeNotReached`. -/
theorem claim_legacy_failure_witness :
    claim_legacy ⟨1, 10, 20, 100, 0, "b", ["x", "y", "z"], 50⟩ 99 1000000
      = Except.error ENotBeneficiary
    ∧ claim_legacy ⟨1, 10, 20, 100, 0, "b", ["x", "y", "z"], 50⟩ 20 100
      = Except.error EUnlockTimeNotReached :=
  ⟨(claim_legacy_failure ⟨1, 10, 20, 100, 0, "b", ["x", "y", "z"], 50⟩ 99 1000000
      (Or.inl (by decide))).trans (by decide),
   (claim_legacy_failure ⟨1, 10, 20, 100, 0, "b", ["x", "y", "z"], 50⟩ 20 100
      (Or.inr (by decide))).trans (by decide)⟩

/-- C5: `claim_legacy` by the beneficiary strictly after the boundary
succeeds: the whole balance is transferred to the beneficiary (no transfer
at all when the balance is zero — not an error), the vault balance becomes
0, and the emitted `LegacyClaimed` event carries the blob id, the locked
shares and the amount. -/
theorem claim_legacy_success (v : LegacyBox) (now : Nat)
    (h : v.last_heartbeat + v.unlock_time_ms < now) :
    claim_legacy v v.beneficiary now
      = Except.ok ({ v with balance := 0 },
          (if 0 < v.balance then [(v.beneficiary, v.balance)] else []),
          VaultEvent.LegacyClaimed v.beneficiary v.encrypted_blob_id
            v.locked_shares v.balance) := by
  simp [claim_legacy, h]

/-- Witness for `claim_legacy_success`: the beneficiary claims 50 MIST one
millisecond past the boundary. -/
theorem claim_legacy_success_witness :
    claim_legacy ⟨1, 10, 20, 100, 0, "b", ["x", "y", "z"], 50⟩ 20 101
      = Except.ok (⟨1, 10, 20, 100, 0, "b", ["x", "y", "z"], 0⟩, [(20, 50)],
          VaultEvent.LegacyClaimed 20 "b" ["x", "y", "z"] 50) :=
  (claim_legacy_success ⟨1, 10, 20, 100, 0, "b", ["x", "y", "z"], 50⟩ 101
    (by decide)).trans (by decide)

/-- C6: `im_alive` by the owner sets `last_heartbeat` to the clock time,
changes no other field (note the single-field record update), and emits the
audit event `HeartbeatUpdated {vault_id, now}`; `im_alive` by anyone else
aborts with `ENotOwner` and mutates nothing. -/
theorem im_alive_spec (v : LegacyBox) (sender now : Nat) :
    (sender = v.owner →
      im_alive v sender now
        = Except.ok ({ v with last_heartbeat := now },
            VaultEvent.HeartbeatUpdated v.id now))
    ∧ (sender ≠ v.owner → im_alive v sender now = Except.error ENotOwner) := by
  constructor
  · intro h; simp [im_alive, h]
  · intro h; simp [im_alive, h]

/-- Witness for `im_alive_spec`: the owner (10) heartbeats at 777; a
stranger (11) is rejected. -/
theorem im_alive_spec_witness :
    im_alive ⟨1, 10, 20, 100, 0, "b", ["x", "y", "z"], 50⟩ 10 777
      = Except.ok (⟨1, 10, 20, 100, 777, "b", ["x", "y", "z"], 50⟩,
          VaultEvent.HeartbeatUpdated 1 777)
    ∧ im_alive ⟨1, 10, 20, 100, 0, "b", ["x", "y", "z"], 50⟩ 11 777
      = Except.error ENotOwner :=
  ⟨((im_alive_spec ⟨1, 10, 20, 100, 0, "b", ["x", "y", "z"], 50⟩ 10 777).1
      rfl).trans (by decide),
   (im_alive_spec ⟨1, 10, 20, 100, 0, "b", ["x", "y", "z"], 50⟩ 11 777).2
      (by decide)⟩

/-- C10: at the boundary instant `now = last_heartbeat + unlock_time_ms`
the query `time_until_claim` returns 0 while `can_claim` returns false, and
that instant is the only one where the two disagree in this way. -/
theorem time_until_claim_boundary (v : LegacyBox) (now : Nat) :
    time_until_claim v (v.last_heartbeat + v.unlock_time_ms) = 0
    ∧ can_claim v (v.last_heartbeat + v.unlock_time_ms) = false
    ∧ (time_until_claim v now = 0 ∧ can_claim v now = false →
        now = v.last_heartbeat + v.unlock_time_ms) := by
  refine ⟨by simp [time_until_claim], by simp [can_claim], ?_⟩
  rintro ⟨h1, h2⟩
  simp [can_claim] at h2
  by_cases hc : v.last_heartbeat + v.unlock_time_ms ≤ now
  · omega
  · simp [time_until_claim, hc] at h1
    omega

/-- Witness for `time_until_claim_boundary` on a vault with boundary at
100: both queries evaluated at 100 itself. -/
theorem time_until_claim_boundary_witness :
    time_until_claim ⟨1, 10, 20, 100, 0, "b", ["x", "y", "z"], 50⟩ 100 = 0
    ∧ can_claim ⟨1, 10, 20, 100, 0, "b", ["x", "y", "z"], 50⟩ 100 = false
    ∧ (100 : Nat) = 0 + 100 :=
  ⟨(time_until_claim_boundary ⟨1, 10, 20, 100, 0, "b", ["x", "y", "z"], 50⟩ 100).1,
   (time_until_claim_boundary ⟨1, 10, 20, 100, 0, "b", ["x", "y", "z"], 50⟩ 100).2.1,
   (time_until_claim_boundary ⟨1, 10, 20, 100, 0, "b", ["x", "y", "z"], 50⟩ 100).2.2
     ⟨by decide, by decide⟩⟩

/-! ## Theorems about the crypto engine -/

/-- C7: the symmetric round trip.  For every plaintext, every 32-byte key
and every 24-byte nonce, decrypting the encryption with the same key
returns the plaintext, and decrypting it with any other 32-byte key throws
the decryption-failure error instead of returning a value. -/
theorem payload_roundtrip (P K nonce : List Nat)
    (hK : K.length = keyLength) (hn : nonce.length = nonceLength) :
    decryptPayload (encryptPayload P K nonce) K = Except.ok P
    ∧ (∀ K2 : List Nat, K2.length = keyLength → K2 ≠ K →
        decryptPayload (encryptPayload P K nonce) K2
          = Except.error "Decryption failed - invalid key or corrupted data") := by
  have h1 : (encryptPayload P K nonce).take nonceLength = nonce := by
    rw [encryptPayload, ← hn, List.take_left]
  have h2 : (encryptPayload P K nonce).drop nonceLength = secretbox P nonce K := by
    rw [encryptPayload, ← hn, List.drop_left]
  have h3 : (secretbox P nonce K).take keyLength = K := by
    rw [secretbox, List.append_assoc, ← hK, List.take_left]
  have h4 : (secretbox P nonce K).drop keyLength = nonce ++ P := by
    rw [secretbox, List.append_assoc, ← hK, List.drop_left]
  have h5 : (nonce ++ P).take nonceLength = nonce := by
    rw [← hn, List.take_left]
  have h6 : (nonce ++ P).drop nonceLength = P := by
    rw [← hn, List.drop_left]
  constructor
  · simp [decryptPayload, h1, h2, secretbox_open, h3, h4, h5, h6]
  · intro K2 hK2 hne
    simp [decryptPayload, h1, h2, secretbox_open, h3, h4, h5, h6, Ne.symm hne]

/-- Witness for `payload_roundtrip`: plaintext `[7, 8]`, the all-ones
32-byte key, the all-twos 24-byte nonce, and the all-threes wrong key. -/
theorem payload_roundtrip_witness :
    decryptPayload
        (encryptPayload [7, 8] (List.replicate 32 1) (List.replicate 24 2))
        (List.replicate 32 1)
      = Except.ok [7, 8]
    ∧ decryptPayload
        (encryptPayload [7, 8] (List.replicate 32 1) (List.replicate 24 2))
        (List.replicate 32 3)
      = Except.error "Decryption failed - invalid key or corrupted data" :=
  ⟨(payload_roundtrip [7, 8] (List.replicate 32 1) (List.replicate 24 2)
      (by decide) (by decide)).1,
   (payload_roundtrip [7, 8] (List.replicate 32 1) (List.replicate 24 2)
      (by decide) (by decide)).2 (List.replicate 32 3) (by decide) (by decide)⟩

/-- Helper: on a 3-element share list `recoverKey` passes the threshold
check and reconstructs by Lagrange interpolation. -/
theorem recoverKey_three (s1 s2 s3 : ZMod 7 × ZMod 7) :
    recoverKey [s1, s2, s3] = Except.ok (lagrange0 [s1, s2, s3]) := by
  simp [recoverKey]

set_option maxHeartbeats 4000000 in
/-- C8: for every key (and every choice of the two random polynomial
coefficients), every one of the `C(5,3) = 10` three-element subsets of the
5 shares produced by `splitKey` — the subset being certified as a genuine
sublist of `splitKey` — is reconstructed by `recoverKey` to the very same
value, namely the original key. -/
theorem shamir_any_three (key a b : ZMod 7) (i j k : Nat)
    (hij : i < j) (hjk : j < k) (hk5 : k < 5) :
    List.Sublist [share key a b i, share key a b j, share key a b k]
      (splitKey key a b)
    ∧ recoverKey [share key a b i, share key a b j, share key a b k]
      = Except.ok key := by
  have hsub : List.Sublist [i, j, k] (List.range 5) := by
    interval_cases k <;> interval_cases j <;> interval_cases i <;> decide
  have h1 : List.Sublist [share key a b i, share key a b j, share key a b k]
      (splitKey key a b) := by
    simpa [splitKey] using List.Sublist.map (share key a b) hsub
  refine ⟨h1, ?_⟩
  clear h1 hsub
  interval_cases k <;> interval_cases j <;> interval_cases i <;>
    (rw [recoverKey_three]; refine congrArg Except.ok ?_; revert key a b; decide)

/-- Witness for `shamir_any_three`: key 3, coefficients 5 and 6, and the
subset of shares 1, 3, 5 (indices 0, 2, 4). -/
theorem shamir_any_three_witness :
    List.Sublist [share 3 5 6 0, share 3 5 6 2, share 3 5 6 4] (splitKey 3 5 6)
    ∧ recoverKey [share 3 5 6 0, share 3 5 6 2, share 3 5 6 4] = Except.ok 3 :=
  shamir_any_three 3 5 6 0 2 4 (by decide) (by decide) (by decide)

/-- C9: `recoverKey` on a list of 2 or fewer shares fails with the
insufficient-shares error, without attempting any reconstruction. -/
theorem recoverKey_insufficient (shares : List (ZMod 7 × ZMod 7))
    (h : shares.length ≤ 2) :
    recoverKey shares
      = Except.error "Minimum 3 shares required to recover key" := by
  have hlt : shares.length < 3 := by omega
  simp [recoverKey, hlt]

/-- Witness for `recoverKey_insufficient`: only shares 1 and 2. -/
theorem recoverKey_insufficient_witness :
    recoverKey [share 3 5 6 0, share 3 5 6 1]
      = Except.error "Minimum 3 shares required to recover key" :=
  recoverKey_insufficient [share 3 5 6 0, share 3 5 6 1] (by decide)

end Heritage
